import Mathlib

/-!
Verification of the change-tracking core of the `inbox` repository:
the revision-capture logic of `inbox/models/transaction.py` (class
`RevisionMaker`, helper `dict_delta`, mixin `HasRevisions`), the
session hook of `inbox/models/session.py`, and the cursor pagination
API of `inbox/transactions/delta_sync.py` (`create_event`,
`get_public_id_from_ts`, `get_entries_from_public_id`).

Modelling conventions:
- Python exceptions that escape a function are modelled by `Except.error`;
  an error escaping revision capture aborts the surrounding flush/commit.
- A SQLAlchemy `Transaction` row is the `Transaction` structure below; the
  persisted transaction log is a `List Transaction` kept in ascending
  order of the store-assigned auto-increment `id` (theorems carry explicit
  sortedness hypotheses where they rely on it).
- Python dicts (snapshots) are association lists with unique keys;
  `previous_dict[k]` is `List.lookup`.
-/

/-- The `command` enum column of the `Transaction` model:
one of insert / update / delete. -/
inductive Command
  | insert
  | update
  | delete
deriving DecidableEq, Repr

/-- A snapshot: the JSON-dict encoding of a record produced by the
injected encoder (`inbox.api.kellogs.encode`), modelled as an
association list from field names to (opaque, stringly) values. -/
abbrev Snap := List (String × String)

/-- A persisted row of the `Transaction` table (`inbox/models/transaction.py`):
store-assigned auto-increment `id`, the `HasPublicID` mixin's `public_id`,
the denormalized `namespace_id`, the described record's `table_name` and
`record_id`, the `command`, the optional `snapshot` (NULL for deletes), and
the `MailSyncBase` columns `created_at` / `deleted_at` (unix times). -/
structure Transaction where
  id : Nat
  public_id : String
  namespace_id : Nat
  table_name : String
  record_id : Nat
  command : Command
  snapshot : Option Snap
  created_at : Nat
  deleted_at : Option Nat
deriving DecidableEq, Repr

/-- The persisted transaction log, ascending by `id`. -/
abbrev Log := List Transaction

/-- A `Transaction` row as constructed by `RevisionMaker` (before the store
assigns `id` / `public_id`): exactly the keyword arguments passed to the
`Transaction(...)` constructor in `create_*_revision`. -/
structure PendingTransaction where
  command : Command
  record_id : Nat
  table_name : String
  snapshot : Option Snap
  namespace_id : Nat
deriving DecidableEq, Repr

/-- A domain object as seen by revision capture: its primary-key `id`,
its `__tablename__`, its namespace relation's id (`obj.namespace.id`),
its soft-delete marker `deleted_at`, whether its class inherits the
`HasRevisions` mixin (`isinstance(obj, HasRevisions)`), and the result of
its `should_create_revision()` instance method. -/
structure DomainObj where
  id : Nat
  tablename : String
  namespace_id : Nat
  deleted_at : Option Nat
  hasRevisions : Bool
  scr : Bool
deriving DecidableEq, Repr

/-- The injected snapshot encoder (`self.encoder_fn`); `Except.error`
models the encoder raising an exception. -/
abbrev Encoder := DomainObj → Except String Snap

/-- `RevisionMaker.should_create_revision`:
`isinstance(obj, HasRevisions) and obj.should_create_revision()`. -/
def should_create_revision (obj : DomainObj) : Bool :=
  obj.hasRevisions && obj.scr

/-- `self.namespace_id or obj.namespace.id`: the ambient namespace id
(set in `RevisionMaker.__init__` when a namespace was passed) wins unless
it is falsy (`None` or `0`). -/
def resolve_namespace (ambient : Option Nat) (obj : DomainObj) : Nat :=
  match ambient with
  | none => obj.namespace_id
  | some n => if n = 0 then obj.namespace_id else n

/-- `dict_delta(current_dict, previous_dict)` from
`inbox/models/transaction.py`: the key-value pairs of `current_dict`
that are absent from `previous_dict` or mapped to a different value. -/
def dict_delta (current_dict previous_dict : Snap) : Snap :=
  current_dict.filter fun kv =>
    match previous_dict.lookup kv.1 with
    | none => true
    | some w => w != kv.2

/-- The `session.query(Transaction).filter(table_name, record_id).
order_by(desc(Transaction.id)).first()` lookup of
`RevisionMaker.create_update_revision`; the raw session used in the
`after_flush` hook applies no soft-delete filter.  With `log` ascending
by `id`, the most recent matching row is the last match. -/
def prev_revision (log : Log) (obj : DomainObj) : Option Transaction :=
  (log.filter fun t =>
    t.table_name == obj.tablename && t.record_id == obj.id).getLast?

/-- `RevisionMaker.create_insert_revision`: skip objects failing
`should_create_revision`, otherwise encode and build an `insert` row.
An encoder exception propagates. -/
def create_insert_revision (enc : Encoder) (ambient : Option Nat)
    (obj : DomainObj) : Except String (Option PendingTransaction) :=
  if should_create_revision obj then
    match enc obj with
    | .error e => .error e
    | .ok snapshot =>
        .ok (some { command := .insert, record_id := obj.id,
                    table_name := obj.tablename, snapshot := some snapshot,
                    namespace_id := resolve_namespace ambient obj })
  else .ok none

/-- `RevisionMaker.create_delete_revision`: skip objects failing
`should_create_revision`, otherwise build a `delete` row with no
snapshot.  Never raises. -/
def create_delete_revision (ambient : Option Nat) (obj : DomainObj) :
    Option PendingTransaction :=
  if should_create_revision obj then
    some { command := .delete, record_id := obj.id,
           table_name := obj.tablename, snapshot := none,
           namespace_id := resolve_namespace ambient obj }
  else none

/-- `RevisionMaker.create_update_revision`: skip objects failing
`should_create_revision`; look up the most recent prior revision for
(table, record); encode; if a prior revision exists, suppress the entry
when `dict_delta(snapshot, prev.snapshot)` is empty.  When the prior
revision is a delete (snapshot `None`), the Python comprehension in
`dict_delta` raises `TypeError` on the first item of a non-empty
`snapshot` (`k not in None`); with an empty `snapshot` the comprehension
yields the empty (falsy) dict and the entry is suppressed. -/
def create_update_revision (enc : Encoder) (ambient : Option Nat)
    (log : Log) (obj : DomainObj) :
    Except String (Option PendingTransaction) :=
  if should_create_revision obj then
    match enc obj with
    | .error e => .error e
    | .ok snapshot =>
        match prev_revision log obj with
        | some pr =>
            match pr.snapshot with
            | some ps =>
                if dict_delta snapshot ps = [] then .ok none
                else .ok (some { command := .update, record_id := obj.id,
                                 table_name := obj.tablename,
                                 snapshot := some snapshot,
                                 namespace_id := resolve_namespace ambient obj })
            | none =>
                if snapshot = [] then .ok none
                else .error "TypeError"
        | none =>
            .ok (some { command := .update, record_id := obj.id,
                        table_name := obj.tablename,
                        snapshot := some snapshot,
                        namespace_id := resolve_namespace ambient obj })
  else .ok none

/-- The dirty-set dispatch inside `RevisionMaker.create_revisions`:
a dirty object with `deleted_at` set is logged as a delete, otherwise
as an update. -/
def create_dirty_revision (enc : Encoder) (ambient : Option Nat)
    (log : Log) (obj : DomainObj) :
    Except String (Option PendingTransaction) :=
  if obj.deleted_at.isSome then .ok (create_delete_revision ambient obj)
  else create_update_revision enc ambient log obj

/-- Run a per-object revision builder over a list of objects, collecting
the rows passed to `session.add`; the first uncaught exception aborts the
whole capture (and with it the surrounding flush, so earlier adds are
rolled back). -/
def collect_revisions (f : DomainObj → Except String (Option PendingTransaction)) :
    List DomainObj → Except String (List PendingTransaction)
  | [] => .ok []
  | o :: os =>
    match f o with
    | .error e => .error e
    | .ok none => collect_revisions f os
    | .ok (some t) =>
        match collect_revisions f os with
        | .error e => .error e
        | .ok ts => .ok (t :: ts)

/-- `RevisionMaker.create_revisions(session)`, as invoked from the
`after_flush` hook of `InboxSession`: walk `session.new` (inserts), then
`session.dirty` (deletes for soft-deleted objects, updates otherwise),
then `session.deleted` (deletes).  `log` is the persisted transaction
log visible to the prior-revision query.  The result is the list of rows
added to the session, or the first uncaught exception. -/
def create_revisions (enc : Encoder) (ambient : Option Nat) (log : Log)
    (snew sdirty sdeleted : List DomainObj) :
    Except String (List PendingTransaction) :=
  match collect_revisions (create_insert_revision enc ambient) snew with
  | .error e => .error e
  | .ok ins =>
    match collect_revisions (create_dirty_revision enc ambient log) sdirty with
    | .error e => .error e
    | .ok upd =>
        .ok (ins ++ upd ++ sdeleted.filterMap (create_delete_revision ambient))

/-- Value of a base-36 digit as accepted by Python `int(s, 36)`:
decimal digits and letters of either case. -/
def digit36 (c : Char) : Option Nat :=
  if '0' ≤ c ∧ c ≤ '9' then some (c.toNat - '0'.toNat)
  else if 'a' ≤ c ∧ c ≤ 'z' then some (c.toNat - 'a'.toNat + 10)
  else if 'A' ≤ c ∧ c ≤ 'Z' then some (c.toNat - 'A'.toNat + 10)
  else none

/-- Python `int(s, 36)` on plain digit strings (sign and surrounding
whitespace forms are not modelled): `none` models `ValueError`. -/
def parseBase36 (s : String) : Option Nat :=
  if s.isEmpty then none
  else s.data.foldl
    (fun acc c => acc.bind fun n => (digit36 c).map fun d => n * 36 + d)
    (some 0)

/-- The delta dictionary built by `create_event` for one transaction. -/
structure Delta where
  id : String
  object_type : String
  event : String
  attributes : Option Snap
deriving DecidableEq, Repr

/-- `create_event(transaction)` from `inbox/transactions/delta_sync.py`.
It first reads `transaction.snapshot['id']` and
`transaction.snapshot['object']`: when `snapshot` is NULL (every delete
row written by `RevisionMaker`) this raises `TypeError`, and a missing
key raises `KeyError`.  Otherwise the event name maps insert→create,
update→update, delete→delete, and `attributes` is the snapshot for
create/update and absent for delete. -/
def create_event (transaction : Transaction) : Except String Delta :=
  match transaction.snapshot with
  | none => .error "TypeError"
  | some snap =>
    match snap.lookup "id", snap.lookup "object" with
    | some i, some o =>
        .ok { id := i, object_type := o,
              event := match transaction.command with
                       | .insert => "create"
                       | .update => "update"
                       | .delete => "delete",
              attributes := match transaction.command with
                            | .delete => none
                            | _ => some snap }
    | _, _ => .error "KeyError"

/-- Soft-delete-aware visibility filter applied by `InboxSession.query`
(`IgnoreSoftDeletesOption`) to the pagination queries: rows must match
the namespace and not be soft-deleted. -/
def visible_in (namespace_id : Nat) (t : Transaction) : Bool :=
  t.namespace_id == namespace_id && t.deleted_at == none

/-- `get_public_id_from_ts(namespace_id, timestamp, db_session)`: the
public id of the highest-id visible transaction in the namespace with
`created_at` strictly before the timestamp, or the special stamp `"0"`
when none exists.  With `log` ascending by `id`, the
`order_by(desc(id)) ... .first()` row is the last match. -/
def get_public_id_from_ts (namespace_id : Nat) (timestamp : Nat)
    (log : Log) : String :=
  match (log.filter fun t =>
      decide (t.created_at < timestamp) && visible_in namespace_id t).getLast? with
  | none => "0"
  | some t => t.public_id

/-- Errors raised by `get_entries_from_public_id`: the `ValueError`
for an invalid cursor, the uncaught `MultipleResultsFound` of `.one()`,
and an uncaught exception escaping `create_event`. -/
inductive PageError
  | invalidCursor (s : String)
  | multipleResults
  | eventError (msg : String)
deriving DecidableEq, Repr

/-- The result dictionary of `get_entries_from_public_id`. -/
structure PageResult where
  cursor_start : String
  deltas : List Delta
  cursor_end : String
deriving DecidableEq, Repr

/-- Cursor resolution at the top of `get_entries_from_public_id`:
`int(cursor_start, 36)` failing, or the `.one()` lookup by
(public id, namespace) finding no row, raises the invalid-cursor
`ValueError`; a zero base-36 value is the start-of-log stamp; `.one()`
finding several rows raises `MultipleResultsFound` (uncaught). -/
def resolve_cursor (log : Log) (namespace_id : Nat) (cursor_start : String) :
    Except PageError Nat :=
  match parseBase36 cursor_start with
  | none => .error (.invalidCursor cursor_start)
  | some 0 => .ok 0
  | some (_ + 1) =>
    match log.filter (fun t =>
        t.public_id == cursor_start && visible_in namespace_id t) with
    | [t] => .ok t.id
    | [] => .error (.invalidCursor cursor_start)
    | _ => .error .multipleResults

/-- Modelled from the spec: `safer_yield_per(query, Transaction.id,
internal_start_id + 1, result_limit)` comes from
`inbox/sqlalchemy_ext/util.py`, which is not part of the sources; per
spec §4.4 the read contract is an ascending-by-sequence-id scan of the
namespace-scoped query's rows starting at the given id (the caller's
loop enforces the result limit by breaking). -/
def transactions_after (log : Log) (namespace_id : Nat) (start_id : Nat) :
    Log :=
  (log.filter (visible_in namespace_id)).filter fun t =>
    decide (start_id < t.id)

/-- The body of the pagination loop: build a delta per transaction,
remember the last public id as `cursor_end`, and break once `result_limit`
deltas are collected.  An exception from `create_event` propagates. -/
def page_go (result_limit : Nat) :
    Log → List Delta → String → Except PageError (List Delta × String)
  | [], deltas, cursor_end => .ok (deltas, cursor_end)
  | t :: ts, deltas, _ =>
    match create_event t with
    | .error e => .error (.eventError e)
    | .ok ev =>
        if (deltas ++ [ev]).length = result_limit then
          .ok (deltas ++ [ev], t.public_id)
        else page_go result_limit ts (deltas ++ [ev]) t.public_id

/-- `get_entries_from_public_id(namespace_id, cursor_start, db_session,
result_limit)`: resolve the cursor, scan visible namespace rows with id
strictly above the resolved start, transform each into a delta, and
return the page with `cursor_end` defaulting to `cursor_start` when the
page is empty. -/
def get_entries_from_public_id (namespace_id : Nat) (cursor_start : String)
    (log : Log) (result_limit : Nat) : Except PageError PageResult :=
  match resolve_cursor log namespace_id cursor_start with
  | .error e => .error e
  | .ok internal_start_id =>
    match page_go result_limit
        (transactions_after log namespace_id internal_start_id)
        [] cursor_start with
    | .error e => .error e
    | .ok (deltas, cursor_end) =>
        .ok { cursor_start := cursor_start, deltas := deltas,
              cursor_end := cursor_end }

/-- The client iteration protocol of the change feed: call the pagination
API, stop on an empty page (caller caught up), otherwise feed the
returned `cursor_end` as the next call's `cursor_start` and concatenate
the pages' deltas.  `fuel` bounds the number of rounds. -/
def iterate_pages (namespace_id : Nat) (log : Log) (result_limit : Nat) :
    Nat → String → Except PageError (List Delta)
  | 0, _ => .ok []
  | fuel + 1, cursor =>
    match get_entries_from_public_id namespace_id cursor log result_limit with
    | .error e => .error e
    | .ok r =>
        if r.deltas = [] then .ok []
        else
          match iterate_pages namespace_id log result_limit fuel r.cursor_end with
          | .error e => .error e
          | .ok rest => .ok (r.deltas ++ rest)

/-- Total variant of `create_event` used to state full-scan results
(meaningful on transactions where `create_event` succeeds). -/
def eventOf (t : Transaction) : Delta :=
  match create_event t with
  | .ok d => d
  | .error _ => { id := "", object_type := "", event := "", attributes := none }

/-- Deltas of a page result, when the call succeeded. -/
def page_deltas (r : Except PageError PageResult) : Option (List Delta) :=
  match r with
  | .ok p => some p.deltas
  | .error _ => none

/-- Error of a page call, when it failed. -/
def page_error (r : Except PageError PageResult) : Option PageError :=
  match r with
  | .error e => some e
  | .ok _ => none

/-- Whether a page call failed specifically with the invalid-cursor
`ValueError`. -/
def is_invalid_cursor_error (r : Except PageError PageResult) : Bool :=
  match r with
  | .error (.invalidCursor _) => true
  | _ => false

/-- Whether a fallible computation completed without raising. -/
def is_ok {ε α : Type} (r : Except ε α) : Bool :=
  match r with
  | .ok _ => true
  | .error _ => false

/-- The `cursor_end` produced by the pagination loop over a consumed
chunk of transactions: the last consumed row's public id, or the
initial value when nothing was consumed. -/
def last_cursor (ce : String) (chunk : Log) : String :=
  match chunk.getLast? with
  | none => ce
  | some b => b.public_id

/-! Concrete fixtures used by counterexamples and witnesses. -/

/-- A versioned domain object with primary key 1 in namespace 7. -/
def obj1 : DomainObj :=
  { id := 1, tablename := "contact", namespace_id := 7, deleted_at := none,
    hasRevisions := true, scr := true }

/-- A versioned domain object with primary key 2 in namespace 7. -/
def obj2 : DomainObj :=
  { id := 2, tablename := "contact", namespace_id := 7, deleted_at := none,
    hasRevisions := true, scr := true }

/-- An object whose class does not inherit `HasRevisions`. -/
def objNoRev : DomainObj :=
  { id := 3, tablename := "messagecontactassociation", namespace_id := 7,
    deleted_at := none, hasRevisions := false, scr := true }

/-- A soft-deleted versioned object in namespace 3. -/
def delObj : DomainObj :=
  { id := 7, tablename := "message", namespace_id := 3, deleted_at := some 99,
    hasRevisions := true, scr := true }

/-- A delete row as `RevisionMaker.create_delete_revision` stores it:
`command='delete'` and a NULL snapshot. -/
def delTx : Transaction :=
  { id := 4, public_id := "d4", namespace_id := 3, table_name := "message",
    record_id := 7, command := .delete, snapshot := none, created_at := 40,
    deleted_at := none }

/-- An encoder that always succeeds. -/
def encA : Encoder := fun o => .ok [("id", "pub"), ("object", o.tablename)]

/-- An encoder that raises for the object with primary key 1 and
succeeds for every other object. -/
def encBoom : Encoder := fun o => if o.id = 1 then .error "boom" else encA o

/-- A small well-formed two-entry log in namespace 1 (used to
instantiate pagination theorems). -/
def wlog : Log :=
  [{ id := 1, public_id := "b1", namespace_id := 1, table_name := "contact",
     record_id := 1, command := .insert,
     snapshot := some [("id", "x1"), ("object", "contact")],
     created_at := 10, deleted_at := none },
   { id := 2, public_id := "b2", namespace_id := 1, table_name := "contact",
     record_id := 1, command := .update,
     snapshot := some [("id", "x1"), ("object", "contact"), ("name", "n")],
     created_at := 20, deleted_at := none }]

/-- A three-entry log in namespace 1 used to exercise multi-page
iteration. -/
def wlog3 : Log :=
  [{ id := 1, public_id := "b1", namespace_id := 1, table_name := "contact",
     record_id := 1, command := .insert,
     snapshot := some [("id", "x1"), ("object", "contact")],
     created_at := 10, deleted_at := none },
   { id := 2, public_id := "b2", namespace_id := 1, table_name := "contact",
     record_id := 2, command := .insert,
     snapshot := some [("id", "x2"), ("object", "contact")],
     created_at := 20, deleted_at := none },
   { id := 3, public_id := "b3", namespace_id := 1, table_name := "contact",
     record_id := 1, command := .update,
     snapshot := some [("id", "x1"), ("object", "contact"), ("name", "n")],
     created_at := 30, deleted_at := none }]

/-! Helper lemmas about revision capture. -/

/-- If a computation is not ok it is some error. -/
theorem error_of_not_ok {ε α : Type} {r : Except ε α} (h : is_ok r = false) :
    ∃ e, r = .error e := by
  cases r with
  | error e => exact ⟨e, rfl⟩
  | ok v => simp [is_ok] at h

/-- If some object's revision builder raises, collecting revisions over a
list containing that object raises. -/
theorem collect_revisions_not_ok
    {f : DomainObj → Except String (Option PendingTransaction)}
    {l : List DomainObj} {o : DomainObj}
    (ho : o ∈ l) (hf : is_ok (f o) = false) :
    is_ok (collect_revisions f l) = false := by
  induction l with
  | nil => cases ho
  | cons a l ih =>
    rcases List.mem_cons.mp ho with rfl | hmem
    · rcases error_of_not_ok hf with ⟨e, he⟩
      simp [collect_revisions, he, is_ok]
    · cases hfa : f a with
      | error e => simp [collect_revisions, hfa, is_ok]
      | ok v =>
        cases v with
        | none => simpa [collect_revisions, hfa] using ih hmem
        | some t =>
          rcases error_of_not_ok (ih hmem) with ⟨e, he⟩
          simp [collect_revisions, hfa, he, is_ok]

/-- Theorem for claim C1 (counterexample): with two newly created objects
where snapshot encoding raises for the first, revision capture raises
instead of skipping only that object: the whole capture (and hence the
enclosing flush/commit) fails and no revision entry is produced, although
the second object alone would have produced one. -/
theorem C1_counterexample_encoding_failure_aborts :
    create_revisions encBoom none [] [obj1, obj2] [] [] = .error "boom"
    ∧ create_revisions encBoom none [] [obj2] [] [] =
        .ok [{ command := .insert, record_id := 2, table_name := "contact",
               snapshot := some [("id", "pub"), ("object", "contact")],
               namespace_id := 7 }] :=
  ⟨rfl, rfl⟩

/-- Theorem for claim C1 (amended): if snapshot encoding raises for any
object that revision capture must encode (a logged new object, or a
logged dirty non-soft-deleted object), the exception propagates out of
`create_revisions`: capture fails — and with it the enclosing flush —
rather than skipping that object with a warning. -/
theorem C1_amended_encoding_failure_fails_capture
    (enc : Encoder) (ambient : Option Nat) (log : Log)
    (snew sdirty sdeleted : List DomainObj)
    (h : (∃ o ∈ snew, should_create_revision o = true ∧ is_ok (enc o) = false)
       ∨ (∃ o ∈ sdirty, o.deleted_at = none ∧ should_create_revision o = true
            ∧ is_ok (enc o) = false)) :
    is_ok (create_revisions enc ambient log snew sdirty sdeleted) = false := by
  rcases h with ⟨o, ho, hscr, henc⟩ | ⟨o, ho, hdel, hscr, henc⟩
  · have h1 : is_ok (create_insert_revision enc ambient o) = false := by
      rcases error_of_not_ok henc with ⟨e, he⟩
      simp [create_insert_revision, hscr, he, is_ok]
    rcases error_of_not_ok (collect_revisions_not_ok ho h1) with ⟨e, he⟩
    simp [create_revisions, he, is_ok]
  · have h1 : is_ok (create_dirty_revision enc ambient log o) = false := by
      rcases error_of_not_ok henc with ⟨e, he⟩
      simp [create_dirty_revision, hdel, create_update_revision, hscr, he,
        is_ok]
    rcases error_of_not_ok (collect_revisions_not_ok ho h1) with ⟨e, he⟩
    cases hc : collect_revisions (create_insert_revision enc ambient) snew with
    | error e2 => simp [create_revisions, hc, is_ok]
    | ok ins => simp [create_revisions, hc, he, is_ok]

/-- Witness for C1 (amended) at a concrete session. -/
theorem C1_amended_witness :
    is_ok (create_revisions encBoom none [] [obj1, obj2] [] []) = false :=
  C1_amended_encoding_failure_fails_capture encBoom none [] [obj1, obj2] [] []
    (Or.inl ⟨obj1, by simp, rfl, rfl⟩)

/-- Theorem for claim C2 (code bug): `RevisionMaker.create_delete_revision`
stores delete rows with a NULL snapshot, and `create_event` reads
`transaction.snapshot['id']` before branching on the command, so every
delete entry raises `TypeError` instead of producing the claimed
`{id, object_type, event='delete'}` delta without attributes. -/
theorem C2_delete_entry_event_raises :
    create_delete_revision none delObj =
      some { command := .delete, record_id := 7, table_name := "message",
             snapshot := none, namespace_id := 3 }
    ∧ create_event delTx = .error "TypeError" :=
  ⟨rfl, rfl⟩

/-- Theorem for claim C4: a page request whose cursor neither parses to
the base-36 zero sentinel nor equals the public id of a (live) revision
entry of the requested namespace fails with the distinct invalid-cursor
error — it neither returns an empty page nor restarts from the start of
the log. -/
theorem C4_invalid_cursor_errors
    (namespace_id : Nat) (cursor : String) (log : Log) (result_limit : Nat)
    (h : parseBase36 cursor = none
       ∨ (parseBase36 cursor ≠ some 0
            ∧ ∀ t ∈ log, ¬(t.public_id = cursor ∧ t.namespace_id = namespace_id
                            ∧ t.deleted_at = none))) :
    get_entries_from_public_id namespace_id cursor log result_limit =
      .error (.invalidCursor cursor) := by
  have hres : resolve_cursor log namespace_id cursor =
      .error (.invalidCursor cursor) := by
    rcases h with hnone | ⟨hnz, hnomem⟩
    · simp [resolve_cursor, hnone]
    · cases hp : parseBase36 cursor with
      | none => simp [resolve_cursor, hp]
      | some n =>
        cases n with
        | zero => exact absurd hp hnz
        | succ m =>
          have hfil : log.filter (fun t =>
              t.public_id == cursor && visible_in namespace_id t) = [] := by
            rw [List.filter_eq_nil_iff]
            intro t ht
            have := hnomem t ht
            simp only [visible_in, Bool.and_eq_true, beq_iff_eq]
            intro hcontra
            exact this ⟨hcontra.1, hcontra.2.1, hcontra.2.2⟩
          simp [resolve_cursor, hp, hfil]
  simp [get_entries_from_public_id, hres]

/-- Witness for C4 at a concrete unknown cursor. -/
theorem C4_witness :
    get_entries_from_public_id 1 "zz" wlog 10 =
      .error (.invalidCursor "zz") :=
  C4_invalid_cursor_errors 1 "zz" wlog 10 (Or.inr ⟨by decide, by decide⟩)

/-- Theorem for claim C5: a dirty non-soft-deleted object whose most
recent prior revision entry for its (table, record) carries a snapshot,
and whose freshly encoded snapshot has an empty `dict_delta` against that
prior snapshot, produces no new revision entry. -/
theorem C5_empty_delta_suppresses_update
    (enc : Encoder) (ambient : Option Nat) (log : Log) (obj : DomainObj)
    (pr : Transaction) (psnap snapshot : Snap)
    (hdel : obj.deleted_at = none)
    (hprev : prev_revision log obj = some pr)
    (hps : pr.snapshot = some psnap)
    (henc : enc obj = .ok snapshot)
    (hdelta : dict_delta snapshot psnap = []) :
    create_dirty_revision enc ambient log obj = .ok none := by
  by_cases hscr : should_create_revision obj = true
  · simp [create_dirty_revision, hdel, create_update_revision, hscr, henc,
      hprev, hps, hdelta]
  · have hscr' : should_create_revision obj = false := by
      simpa using hscr
    simp [create_dirty_revision, hdel, create_update_revision, hscr']

/-- Witness for C5: re-encoding an unchanged object whose last logged
snapshot is identical yields no new entry. -/
theorem C5_witness : create_dirty_revision encA none
    [{ id := 9, public_id := "p9", namespace_id := 7,
       table_name := "contact", record_id := 1, command := .insert,
       snapshot := some [("id", "pub"), ("object", "contact")],
       created_at := 5, deleted_at := none }] obj1 = .ok none :=
  C5_empty_delta_suppresses_update encA none _ obj1 _
    [("id", "pub"), ("object", "contact")]
    [("id", "pub"), ("object", "contact")] rfl rfl rfl rfl rfl

/-- Theorem for claim C6: a dirty non-soft-deleted logged object with no
prior revision entry for its (table, record) gets an update revision
carrying the new snapshot, with no diff suppression. -/
theorem C6_no_prior_revision_logs_update
    (enc : Encoder) (ambient : Option Nat) (log : Log) (obj : DomainObj)
    (snapshot : Snap)
    (hdel : obj.deleted_at = none)
    (hscr : should_create_revision obj = true)
    (hprev : prev_revision log obj = none)
    (henc : enc obj = .ok snapshot) :
    create_dirty_revision enc ambient log obj =
      .ok (some { command := .update, record_id := obj.id,
                  table_name := obj.tablename, snapshot := some snapshot,
                  namespace_id := resolve_namespace ambient obj }) := by
  simp [create_dirty_revision, hdel, create_update_revision, hscr, henc, hprev]

/-- Witness for C6 on an empty log. -/
theorem C6_witness : create_dirty_revision encA none [] obj1 =
    .ok (some { command := .update, record_id := 1, table_name := "contact",
                snapshot := some [("id", "pub"), ("object", "contact")],
                namespace_id := 7 }) :=
  C6_no_prior_revision_logs_update encA none [] obj1
    [("id", "pub"), ("object", "contact")] rfl rfl rfl rfl

/-- Every collected revision row originates from some object of the
walked list on which the builder returned exactly that row. -/
theorem collect_revisions_sourced
    {f : DomainObj → Except String (Option PendingTransaction)}
    {l : List DomainObj} {out : List PendingTransaction}
    (h : collect_revisions f l = .ok out) :
    ∀ r ∈ out, ∃ o ∈ l, f o = .ok (some r) := by
  induction l generalizing out with
  | nil =>
    simp only [collect_revisions, Except.ok.injEq] at h
    subst h
    intro r hr
    cases hr
  | cons a l ih =>
    intro r hr
    cases hfa : f a with
    | error e => simp [collect_revisions, hfa] at h
    | ok v =>
      cases v with
      | none =>
        rw [collect_revisions, hfa] at h
        rcases ih h r hr with ⟨o, ho, hv⟩
        exact ⟨o, List.mem_cons_of_mem a ho, hv⟩
      | some t =>
        rw [collect_revisions, hfa] at h
        cases hc : collect_revisions f l with
        | error e => rw [hc] at h; cases h
        | ok ts =>
          rw [hc] at h
          cases h
          rcases List.mem_cons.mp hr with rfl | hmem
          · exact ⟨a, List.mem_cons_self a l, hfa⟩
          · rcases ih hc r hmem with ⟨o, ho, hv⟩
            exact ⟨o, List.mem_cons_of_mem a ho, hv⟩

/-- Shape of a row produced by `create_insert_revision`. -/
theorem create_insert_revision_shape
    {enc : Encoder} {ambient : Option Nat} {o : DomainObj}
    {r : PendingTransaction}
    (h : create_insert_revision enc ambient o = .ok (some r)) :
    should_create_revision o = true ∧ r.record_id = o.id
      ∧ r.table_name = o.tablename
      ∧ r.namespace_id = resolve_namespace ambient o := by
  by_cases hscr : should_create_revision o = true
  · rw [create_insert_revision, if_pos hscr] at h
    cases he : enc o with
    | error e => rw [he] at h; cases h
    | ok snap =>
      rw [he] at h
      cases h
      exact ⟨hscr, rfl, rfl, rfl⟩
  · rw [create_insert_revision, if_neg hscr] at h
    cases h

/-- Shape of a row produced by `create_delete_revision`. -/
theorem create_delete_revision_shape
    {ambient : Option Nat} {o : DomainObj} {r : PendingTransaction}
    (h : create_delete_revision ambient o = some r) :
    should_create_revision o = true ∧ r.record_id = o.id
      ∧ r.table_name = o.tablename
      ∧ r.namespace_id = resolve_namespace ambient o := by
  by_cases hscr : should_create_revision o = true
  · rw [create_delete_revision, if_pos hscr] at h
    cases h
    exact ⟨hscr, rfl, rfl, rfl⟩
  · rw [create_delete_revision, if_neg hscr] at h
    cases h

/-- Shape of a row produced by `create_update_revision`. -/
theorem create_update_revision_shape
    {enc : Encoder} {ambient : Option Nat} {log : Log} {o : DomainObj}
    {r : PendingTransaction}
    (h : create_update_revision enc ambient log o = .ok (some r)) :
    should_create_revision o = true ∧ r.record_id = o.id
      ∧ r.table_name = o.tablename
      ∧ r.namespace_id = resolve_namespace ambient o := by
  by_cases hscr : should_create_revision o = true
  · cases he : enc o with
    | error e => simp [create_update_revision, hscr, he] at h
    | ok snap =>
      cases hp : prev_revision log o with
      | none =>
        simp only [create_update_revision, if_pos hscr, he, hp,
          Except.ok.injEq, Option.some.injEq] at h
        subst h
        exact ⟨hscr, rfl, rfl, rfl⟩
      | some pr =>
        cases hps : pr.snapshot with
        | none =>
          simp only [create_update_revision, if_pos hscr, he, hp, hps] at h
          by_cases hempty : snap = []
          · rw [if_pos hempty] at h
            simp at h
          · rw [if_neg hempty] at h
            cases h
        | some ps =>
          simp only [create_update_revision, if_pos hscr, he, hp, hps] at h
          by_cases hd : dict_delta snap ps = []
          · rw [if_pos hd] at h
            simp at h
          · rw [if_neg hd] at h
            simp only [Except.ok.injEq, Option.some.injEq] at h
            subst h
            exact ⟨hscr, rfl, rfl, rfl⟩
  · rw [create_update_revision, if_neg hscr] at h
    cases h

/-- Shape of a row produced by the dirty-set dispatch. -/
theorem create_dirty_revision_shape
    {enc : Encoder} {ambient : Option Nat} {log : Log} {o : DomainObj}
    {r : PendingTransaction}
    (h : create_dirty_revision enc ambient log o = .ok (some r)) :
    should_create_revision o = true ∧ r.record_id = o.id
      ∧ r.table_name = o.tablename
      ∧ r.namespace_id = resolve_namespace ambient o := by
  by_cases hdel : o.deleted_at.isSome = true
  · rw [create_dirty_revision, if_pos hdel] at h
    cases hcd : create_delete_revision ambient o with
    | none => rw [hcd] at h; cases h
    | some t =>
      rw [hcd] at h
      cases h
      exact create_delete_revision_shape hcd
  · rw [create_dirty_revision, if_neg hdel] at h
    exact create_update_revision_shape h

/-- Every row produced by `create_revisions` originates from a session
object that passed `should_create_revision`, describes that object's
(table, record), and carries the resolved namespace id for it. -/
theorem create_revisions_sourced
    {enc : Encoder} {ambient : Option Nat} {log : Log}
    {snew sdirty sdeleted : List DomainObj} {out : List PendingTransaction}
    (h : create_revisions enc ambient log snew sdirty sdeleted = .ok out) :
    ∀ r ∈ out, ∃ o, (o ∈ snew ∨ o ∈ sdirty ∨ o ∈ sdeleted)
      ∧ should_create_revision o = true ∧ r.record_id = o.id
      ∧ r.table_name = o.tablename
      ∧ r.namespace_id = resolve_namespace ambient o := by
  intro r hr
  cases h1 : collect_revisions (create_insert_revision enc ambient) snew with
  | error e => rw [create_revisions, h1] at h; cases h
  | ok ins =>
    cases h2 : collect_revisions (create_dirty_revision enc ambient log)
        sdirty with
    | error e => rw [create_revisions, h1, h2] at h; cases h
    | ok upd =>
      rw [create_revisions, h1, h2] at h
      cases h
      rcases List.mem_append.mp hr with hmem | hdelmem
      · rcases List.mem_append.mp hmem with hins | hupd
        · rcases collect_revisions_sourced h1 r hins with ⟨o, ho, hv⟩
          rcases create_insert_revision_shape hv with ⟨hscr, h3, h4, h5⟩
          exact ⟨o, Or.inl ho, hscr, h3, h4, h5⟩
        · rcases collect_revisions_sourced h2 r hupd with ⟨o, ho, hv⟩
          rcases create_dirty_revision_shape hv with ⟨hscr, h3, h4, h5⟩
          exact ⟨o, Or.inr (Or.inl ho), hscr, h3, h4, h5⟩
      · rcases List.mem_filterMap.mp hdelmem with ⟨o, ho, hv⟩
        rcases create_delete_revision_shape hv with ⟨hscr, h3, h4, h5⟩
        exact ⟨o, Or.inr (Or.inr ho), hscr, h3, h4, h5⟩

/-- Theorem for claim C8 (counterexample): with an ambient namespace
scope of id 5, capturing an insert of a record whose own namespace is 7
appends an entry whose namespace id is the ambient 5, not the record's
7 — the claimed invariant fails under an ambient namespace scope. -/
theorem C8_counterexample_ambient_namespace_wins :
    create_revisions encA (some 5) [] [obj1] [] [] =
      .ok [{ command := .insert, record_id := 1, table_name := "contact",
             snapshot := some [("id", "pub"), ("object", "contact")],
             namespace_id := 5 }]
    ∧ obj1.namespace_id = 7 :=
  ⟨rfl, rfl⟩

/-- Theorem for claim C8 (amended): every entry appended by revision
capture describes some session object's (table, record) and carries
`self.namespace_id or obj.namespace.id`: without an ambient namespace
scope this is the record's own namespace id (for insert, update and
delete entries alike), while under a non-falsy ambient scope the entry
carries the ambient namespace id — which matches the record only when
the record belongs to that namespace. -/
theorem C8_amended_namespace_of_entries
    (enc : Encoder) (ambient : Option Nat) (log : Log)
    (snew sdirty sdeleted : List DomainObj) (out : List PendingTransaction)
    (h : create_revisions enc ambient log snew sdirty sdeleted = .ok out)
    (r : PendingTransaction) (hr : r ∈ out) :
    ∃ o, (o ∈ snew ∨ o ∈ sdirty ∨ o ∈ sdeleted)
      ∧ r.record_id = o.id ∧ r.table_name = o.tablename
      ∧ (ambient = none → r.namespace_id = o.namespace_id)
      ∧ ∀ n, ambient = some n → n ≠ 0 → r.namespace_id = n := by
  rcases create_revisions_sourced h r hr with ⟨o, ho, _, h3, h4, h5⟩
  refine ⟨o, ho, h3, h4, ?_, ?_⟩
  · intro hnone
    rw [h5, hnone, resolve_namespace]
  · intro n hsome hn
    rw [h5, hsome, resolve_namespace, if_neg hn]

/-- Witness for C8 (amended) on a concrete unscoped capture. -/
theorem C8_amended_witness :
    create_revisions encA none [] [obj1] [] [] =
      .ok [{ command := .insert, record_id := 1, table_name := "contact",
             snapshot := some [("id", "pub"), ("object", "contact")],
             namespace_id := 7 }]
    ∧ ∃ o, (o ∈ [obj1] ∨ o ∈ ([] : List DomainObj) ∨ o ∈ ([] : List DomainObj))
      ∧ ({ command := .insert, record_id := 1, table_name := "contact",
           snapshot := some [("id", "pub"), ("object", "contact")],
           namespace_id := 7 } : PendingTransaction).record_id = o.id
      ∧ ({ command := .insert, record_id := 1, table_name := "contact",
           snapshot := some [("id", "pub"), ("object", "contact")],
           namespace_id := 7 } : PendingTransaction).table_name = o.tablename
      ∧ ((none : Option Nat) = none →
          ({ command := .insert, record_id := 1, table_name := "contact",
             snapshot := some [("id", "pub"), ("object", "contact")],
             namespace_id := 7 } : PendingTransaction).namespace_id =
            o.namespace_id)
      ∧ ∀ n, (none : Option Nat) = some n → n ≠ 0 →
          ({ command := .insert, record_id := 1, table_name := "contact",
             snapshot := some [("id", "pub"), ("object", "contact")],
             namespace_id := 7 } : PendingTransaction).namespace_id = n :=
  ⟨rfl, C8_amended_namespace_of_entries encA none [] [obj1] [] [] _ rfl _
    (List.mem_singleton.mpr rfl)⟩

/-- Objects failing `should_create_revision` contribute nothing to a
collection pass, so filtering them out first changes nothing. -/
theorem collect_revisions_filter
    {f : DomainObj → Except String (Option PendingTransaction)}
    (hskip : ∀ o, should_create_revision o = false → f o = .ok none)
    (l : List DomainObj) :
    collect_revisions f (l.filter should_create_revision) =
      collect_revisions f l := by
  induction l with
  | nil => rfl
  | cons a l ih =>
    by_cases hpa : should_create_revision a = true
    · rw [List.filter_cons_of_pos hpa]
      rw [collect_revisions, collect_revisions, ih]
    · have hfa : should_create_revision a = false := by simpa using hpa
      rw [List.filter_cons_of_neg (by simp [hfa])]
      rw [ih, collect_revisions, hskip a hfa]

/-- Objects failing `should_create_revision` contribute no delete row,
so filtering them out of the deleted set changes nothing. -/
theorem filterMap_delete_filter (ambient : Option Nat)
    (l : List DomainObj) :
    (l.filter should_create_revision).filterMap
        (create_delete_revision ambient) =
      l.filterMap (create_delete_revision ambient) := by
  induction l with
  | nil => rfl
  | cons a l ih =>
    by_cases hpa : should_create_revision a = true
    · rw [List.filter_cons_of_pos hpa]
      rw [List.filterMap_cons, List.filterMap_cons, ih]
    · have hfa : should_create_revision a = false := by simpa using hpa
      rw [List.filter_cons_of_neg (by simp [hfa])]
      rw [ih, List.filterMap_cons, create_delete_revision, if_neg hpa]

/-- Theorem for claim C10: objects failing the
`isinstance(obj, HasRevisions) and obj.should_create_revision()` check
(in particular every object whose class lacks the `HasRevisions` mixin)
contribute nothing to revision capture — removing them from the new,
dirty and deleted sets leaves the captured entries unchanged — and every
captured entry originates from an object that passed the check. -/
theorem C10_only_has_revisions_objects_logged
    (enc : Encoder) (ambient : Option Nat) (log : Log)
    (snew sdirty sdeleted : List DomainObj) :
    create_revisions enc ambient log (snew.filter should_create_revision)
        (sdirty.filter should_create_revision)
        (sdeleted.filter should_create_revision) =
      create_revisions enc ambient log snew sdirty sdeleted
    ∧ ∀ out r, create_revisions enc ambient log snew sdirty sdeleted = .ok out →
        r ∈ out → ∃ o, (o ∈ snew ∨ o ∈ sdirty ∨ o ∈ sdeleted)
          ∧ should_create_revision o = true ∧ r.record_id = o.id
          ∧ r.table_name = o.tablename := by
  constructor
  · have hins : ∀ o, should_create_revision o = false →
        create_insert_revision enc ambient o = .ok none := by
      intro o hfo
      simp [create_insert_revision, hfo]
    have hdirty : ∀ o, should_create_revision o = false →
        create_dirty_revision enc ambient log o = .ok none := by
      intro o hfo
      by_cases hdel : o.deleted_at.isSome = true
      · simp [create_dirty_revision, hdel, create_delete_revision, hfo]
      · simp [create_dirty_revision, hdel, create_update_revision, hfo]
    rw [create_revisions, create_revisions,
      collect_revisions_filter hins snew,
      collect_revisions_filter hdirty sdirty,
      filterMap_delete_filter ambient sdeleted]
  · intro out r h hr
    rcases create_revisions_sourced h r hr with ⟨o, ho, hscr, h3, h4, _⟩
    exact ⟨o, ho, hscr, h3, h4⟩

/-- Witness for C10 on a concrete session holding one versioned and one
unversioned object. -/
theorem C10_witness :
    create_revisions encA none []
        ([obj2, objNoRev].filter should_create_revision)
        ([].filter should_create_revision)
        ([].filter should_create_revision) =
      create_revisions encA none [] [obj2, objNoRev] [] []
    ∧ ∃ o, (o ∈ [obj2, objNoRev] ∨ o ∈ ([] : List DomainObj)
          ∨ o ∈ ([] : List DomainObj))
        ∧ should_create_revision o = true
        ∧ ({ command := .insert, record_id := 2, table_name := "contact",
             snapshot := some [("id", "pub"), ("object", "contact")],
             namespace_id := 7 } : PendingTransaction).record_id = o.id
        ∧ ({ command := .insert, record_id := 2, table_name := "contact",
             snapshot := some [("id", "pub"), ("object", "contact")],
             namespace_id := 7 } : PendingTransaction).table_name =
            o.tablename :=
  ⟨(C10_only_has_revisions_objects_logged encA none [] [obj2, objNoRev]
      [] []).1,
   (C10_only_has_revisions_objects_logged encA none [] [obj2, objNoRev]
      [] []).2 _ _ rfl (List.mem_singleton.mpr rfl)⟩

/-- The last element of a list, when present, is a member. -/
theorem mem_of_getLast_some {α : Type} {l : List α} {a : α}
    (h : l.getLast? = some a) : a ∈ l := by
  cases l with
  | nil => simp at h
  | cons b t =>
    rw [List.getLast?_eq_getLast_of_ne_nil (List.cons_ne_nil b t)] at h
    rw [← Option.some.inj h]
    exact List.getLast_mem (List.cons_ne_nil b t)

/-- In a list strictly ascending by `id`, the last element has the
maximal `id`. -/
theorem last_id_max {l : Log} :
    l.Pairwise (fun a b => a.id < b.id) → ∀ {b : Transaction},
      l.getLast? = some b → ∀ x ∈ l, x.id ≤ b.id := by
  induction l with
  | nil => intro _ b hb; simp at hb
  | cons a t ih =>
    intro hs b hb x hx
    cases t with
    | nil =>
      have hab : a = b := by simpa using hb
      have hxa : x = a := by simpa using hx
      simp [hxa, hab]
    | cons c m =>
      rw [List.getLast?_cons_cons] at hb
      have hpw := List.pairwise_cons.mp hs
      rcases List.mem_cons.mp hx with rfl | hx'
      · exact Nat.le_of_lt (hpw.1 b (mem_of_getLast_some hb))
      · exact ih hpw.2 hb x hx'

/-- Theorem for claim C7: `get_public_id_from_ts` returns the public id
of the most recent (highest sequence id) revision entry of the namespace
created strictly before the given unix timestamp, and the start-of-log
stamp `"0"` when no such entry exists. -/
theorem C7_cursor_for_timestamp (ns ts : Nat) (log : Log)
    (hsorted : log.Pairwise fun a b => a.id < b.id)
    (hlive : ∀ t ∈ log, t.deleted_at = none) :
    (get_public_id_from_ts ns ts log = "0"
      ∧ ∀ t ∈ log, ¬(t.namespace_id = ns ∧ t.created_at < ts))
    ∨ ∃ t ∈ log, t.namespace_id = ns ∧ t.created_at < ts
        ∧ get_public_id_from_ts ns ts log = t.public_id
        ∧ ∀ u ∈ log, u.namespace_id = ns → u.created_at < ts →
            u.id ≤ t.id := by
  cases hF : (log.filter fun t =>
      decide (t.created_at < ts) && visible_in ns t).getLast? with
  | none =>
    left
    have hnil : (log.filter fun t =>
        decide (t.created_at < ts) && visible_in ns t) = [] :=
      List.getLast?_eq_none_iff.mp hF
    refine ⟨by simp [get_public_id_from_ts, hF], ?_⟩
    intro t ht hcontra
    have hpt : (decide (t.created_at < ts) && visible_in ns t) = true := by
      simp [visible_in, hcontra.1, hcontra.2, hlive t ht]
    have hmem : t ∈ (log.filter fun t =>
        decide (t.created_at < ts) && visible_in ns t) :=
      List.mem_filter.mpr ⟨ht, hpt⟩
    rw [hnil] at hmem
    cases hmem
  | some b =>
    right
    have hbmem := mem_of_getLast_some hF
    have hb := List.mem_filter.mp hbmem
    have hbp := hb.2
    simp only [visible_in, Bool.and_eq_true, beq_iff_eq,
      decide_eq_true_eq] at hbp
    refine ⟨b, hb.1, hbp.2.1, hbp.1, by simp [get_public_id_from_ts, hF], ?_⟩
    intro u hu hns hlt
    have hpw : (log.filter fun t =>
        decide (t.created_at < ts) && visible_in ns t).Pairwise
        (fun a b => a.id < b.id) :=
      List.Pairwise.sublist (List.filter_sublist log) hsorted
    exact last_id_max hpw hF u
      (List.mem_filter.mpr ⟨hu, by simp [visible_in, hns, hlt, hlive u hu]⟩)

/-- Witness for C7 at a concrete log and timestamp. -/
theorem C7_witness :
    (wlog.Pairwise fun a b => a.id < b.id)
    ∧ ((get_public_id_from_ts 1 25 wlog = "0"
        ∧ ∀ t ∈ wlog, ¬(t.namespace_id = 1 ∧ t.created_at < 25))
      ∨ ∃ t ∈ wlog, t.namespace_id = 1 ∧ t.created_at < 25
          ∧ get_public_id_from_ts 1 25 wlog = t.public_id
          ∧ ∀ u ∈ wlog, u.namespace_id = 1 → u.created_at < 25 →
              u.id ≤ t.id) :=
  ⟨by decide, C7_cursor_for_timestamp 1 25 wlog (by decide) (by decide)⟩

/-- After consuming at least one row, the pagination loop no longer
depends on the initial `cursor_end` value. -/
theorem page_go_cons_cursor_irrelevant (result_limit : Nat)
    (t : Transaction) (ts : Log) (acc : List Delta) (c1 c2 : String) :
    page_go result_limit (t :: ts) acc c1 =
      page_go result_limit (t :: ts) acc c2 := rfl

/-- The pagination loop only ever raises exceptions coming out of
`create_event`, never the invalid-cursor error. -/
theorem page_go_error_shape {result_limit : Nat} {ts : Log}
    {acc : List Delta} {ce : String} {e : PageError}
    (h : page_go result_limit ts acc ce = .error e) :
    ∃ m, e = .eventError m := by
  induction ts generalizing acc ce with
  | nil => cases h
  | cons t ts ih =>
    rw [page_go] at h
    cases hev : create_event t with
    | error m =>
      simp only [hev] at h
      exact ⟨m, (Except.error.inj h).symm⟩
    | ok ev =>
      simp only [hev] at h
      by_cases hlen : (acc ++ [ev]).length = result_limit
      · rw [if_pos hlen] at h
        cases h
      · rw [if_neg hlen] at h
        exact ih h

/-- Theorem for claim C9: any cursor string parsing to base-36 zero is
treated as the start-of-log stamp — it resolves to internal id 0 without
any lookup against entry public ids, the page call behaves exactly as
with cursor `"0"` (same deltas, same error if any), and the
invalid-cursor error is never raised for it. -/
theorem C9_zero_parsing_cursor_is_sentinel (ns : Nat) (log : Log)
    (result_limit : Nat) (s : String) (h : parseBase36 s = some 0) :
    resolve_cursor log ns s = .ok 0
    ∧ page_deltas (get_entries_from_public_id ns s log result_limit) =
        page_deltas (get_entries_from_public_id ns "0" log result_limit)
    ∧ page_error (get_entries_from_public_id ns s log result_limit) =
        page_error (get_entries_from_public_id ns "0" log result_limit)
    ∧ is_invalid_cursor_error
        (get_entries_from_public_id ns s log result_limit) = false := by
  have hres : resolve_cursor log ns s = .ok 0 := by
    simp [resolve_cursor, h]
  have hres0 : resolve_cursor log ns "0" = .ok 0 := by
    simp [resolve_cursor, show parseBase36 "0" = some 0 from rfl]
  refine ⟨hres, ?_⟩
  cases hA : transactions_after log ns 0 with
  | nil =>
    have h1 : get_entries_from_public_id ns s log result_limit =
        .ok { cursor_start := s, deltas := [], cursor_end := s } := by
      simp [get_entries_from_public_id, hres, hA, page_go]
    have h2 : get_entries_from_public_id ns "0" log result_limit =
        .ok { cursor_start := "0", deltas := [], cursor_end := "0" } := by
      simp [get_entries_from_public_id, hres0, hA, page_go]
    simp [h1, h2, page_deltas, page_error, is_invalid_cursor_error]
  | cons t ts =>
    have heq : page_go result_limit (t :: ts) [] s =
        page_go result_limit (t :: ts) [] "0" :=
      page_go_cons_cursor_irrelevant result_limit t ts [] s "0"
    cases hpg : page_go result_limit (t :: ts) [] "0" with
    | error e =>
      have h1 : get_entries_from_public_id ns s log result_limit =
          .error e := by
        simp [get_entries_from_public_id, hres, hA, heq, hpg]
      have h2 : get_entries_from_public_id ns "0" log result_limit =
          .error e := by
        simp [get_entries_from_public_id, hres0, hA, hpg]
      rcases page_go_error_shape hpg with ⟨m, rfl⟩
      simp [h1, h2, page_deltas, page_error, is_invalid_cursor_error]
    | ok dc =>
      obtain ⟨d, ce⟩ := dc
      have h1 : get_entries_from_public_id ns s log result_limit =
          .ok { cursor_start := s, deltas := d, cursor_end := ce } := by
        simp [get_entries_from_public_id, hres, hA, heq, hpg]
      have h2 : get_entries_from_public_id ns "0" log result_limit =
          .ok { cursor_start := "0", deltas := d, cursor_end := ce } := by
        simp [get_entries_from_public_id, hres0, hA, hpg]
      simp [h1, h2, page_deltas, page_error, is_invalid_cursor_error]

/-- Witness for C9 on the concrete zero-parsing cursor "00". -/
theorem C9_witness :
    parseBase36 "00" = some 0
    ∧ (resolve_cursor wlog 1 "00" = .ok 0
      ∧ page_deltas (get_entries_from_public_id 1 "00" wlog 10) =
          page_deltas (get_entries_from_public_id 1 "0" wlog 10)
      ∧ page_error (get_entries_from_public_id 1 "00" wlog 10) =
          page_error (get_entries_from_public_id 1 "0" wlog 10)
      ∧ is_invalid_cursor_error
          (get_entries_from_public_id 1 "00" wlog 10) = false) :=
  ⟨by decide, C9_zero_parsing_cursor_is_sentinel 1 wlog 10 "00" (by decide)⟩

/-- Membership in the scanned suffix of the log. -/
theorem mem_transactions_after {log : Log} {ns s : Nat} {t : Transaction} :
    t ∈ transactions_after log ns s ↔
      t ∈ log ∧ visible_in ns t = true ∧ s < t.id := by
  constructor
  · intro h
    have h1 := List.mem_filter.mp h
    have h2 := List.mem_filter.mp h1.1
    exact ⟨h2.1, h2.2, by simpa using h1.2⟩
  · intro h
    exact List.mem_filter.mpr
      ⟨List.mem_filter.mpr ⟨h.1, h.2.1⟩, by simpa using h.2.2⟩

/-- The scanned suffix inherits the log's strict ordering by id. -/
theorem transactions_after_pairwise {log : Log} {ns s : Nat}
    (h : log.Pairwise fun a b => a.id < b.id) :
    (transactions_after log ns s).Pairwise (fun a b => a.id < b.id) :=
  List.Pairwise.sublist (List.filter_sublist _)
    (List.Pairwise.sublist (List.filter_sublist _) h)

/-- Splitting off the head of a consumed chunk shifts the pagination
loop's fallback cursor. -/
theorem last_cursor_cons (ce : String) (t : Transaction) (c : Log) :
    last_cursor ce (t :: c) = last_cursor t.public_id c := by
  cases c with
  | nil => simp [last_cursor]
  | cons u m =>
    cases hg : (u :: m).getLast? with
    | none => simp [List.getLast?_eq_none_iff] at hg
    | some x => simp [last_cursor, List.getLast?_cons_cons, hg]

/-- When every scanned row's delta builds successfully, the pagination
loop returns the first `result_limit` scanned rows' deltas and the last
consumed row's public id as `cursor_end`. -/
theorem page_go_ok {result_limit : Nat} {ts : Log} :
    ∀ {acc : List Delta} {ce : String}, acc.length < result_limit →
      (∀ t ∈ ts, is_ok (create_event t) = true) →
      page_go result_limit ts acc ce =
        .ok (acc ++ (ts.take (result_limit - acc.length)).map eventOf,
             last_cursor ce (ts.take (result_limit - acc.length))) := by
  induction ts with
  | nil =>
    intro acc ce hlen hok
    simp [page_go, last_cursor]
  | cons t ts ih =>
    intro acc ce hlen hok
    have hokt := hok t (List.mem_cons_self t ts)
    obtain ⟨d, hd⟩ : ∃ d, create_event t = .ok d := by
      cases hev : create_event t with
      | error e => rw [hev] at hokt; simp [is_ok] at hokt
      | ok d => exact ⟨d, rfl⟩
    have hdev : eventOf t = d := by simp [eventOf, hd]
    rw [page_go]
    simp only [hd]
    by_cases hit : (acc ++ [d]).length = result_limit
    · rw [if_pos hit]
      have hk1 : result_limit - acc.length = 1 := by
        simp only [List.length_append, List.length_cons, List.length_nil] at hit
        omega
      rw [hk1]
      simp [last_cursor, hdev]
    · rw [if_neg hit]
      have hlen' : (acc ++ [d]).length < result_limit := by
        simp only [List.length_append, List.length_cons, List.length_nil] at hit ⊢
        omega
      rw [ih hlen' (fun u hu => hok u (List.mem_cons_of_mem t hu))]
      have harith : result_limit - (acc ++ [d]).length =
          result_limit - acc.length - 1 := by
        simp only [List.length_append, List.length_cons, List.length_nil]
        omega
      have htake : (t :: ts).take (result_limit - acc.length) =
          t :: ts.take (result_limit - acc.length - 1) := by
        have hk : result_limit - acc.length =
            (result_limit - acc.length - 1) + 1 := by omega
        rw [hk]
        exact List.take_succ_cons
      rw [harith, htake, last_cursor_cons]
      simp [hdev]

/-- In a log with pairwise distinct public ids, the cursor lookup filter
returns exactly the matching row. -/
theorem filter_eq_singleton_of_nodup {log : Log} {b : Transaction}
    {p : Transaction → Bool}
    (hnodup : (log.map Transaction.public_id).Nodup)
    (hb : b ∈ log) (hpb : p b = true)
    (hpub : ∀ u ∈ log, p u = true → u.public_id = b.public_id) :
    log.filter p = [b] := by
  induction log with
  | nil => cases hb
  | cons a l ih =>
    rw [List.map_cons, List.nodup_cons] at hnodup
    rcases List.mem_cons.mp hb with rfl | hbl
    · rw [List.filter_cons_of_pos hpb]
      have hnil : l.filter p = [] := by
        rw [List.filter_eq_nil_iff]
        intro x hx hpx
        exact hnodup.1 (List.mem_map.mpr
          ⟨x, hx, hpub x (List.mem_cons_of_mem _ hx) hpx⟩)
      rw [hnil]
    · have hpa : p a = false := by
        by_contra hcon
        have hpa' : p a = true := by simpa using hcon
        have heqp : a.public_id = b.public_id :=
          hpub a (List.mem_cons_self _ _) hpa'
        exact hnodup.1 (List.mem_map.mpr ⟨b, hbl, heqp.symm⟩)
      rw [List.filter_cons_of_neg (by simp [hpa])]
      exact ih hnodup.2 hbl
        (fun u hu hpu => hpub u (List.mem_cons_of_mem _ hu) hpu)

/-- Resolving the public id of a live log row of the namespace yields
that row's internal sequence id. -/
theorem resolve_cursor_member {log : Log} {ns : Nat} {b : Transaction}
    (hnodup : (log.map Transaction.public_id).Nodup)
    (hvalid : parseBase36 b.public_id ≠ none
      ∧ parseBase36 b.public_id ≠ some 0)
    (hb : b ∈ log) (hvis : visible_in ns b = true) :
    resolve_cursor log ns b.public_id = .ok b.id := by
  cases hp : parseBase36 b.public_id with
  | none => exact absurd hp hvalid.1
  | some n =>
    cases n with
    | zero => exact absurd hp hvalid.2
    | succ m =>
      have hfil : log.filter
          (fun t => t.public_id == b.public_id && visible_in ns t) = [b] := by
        apply filter_eq_singleton_of_nodup hnodup hb (by simp [hvis])
        intro u _ hpu
        simp only [Bool.and_eq_true, beq_iff_eq] at hpu
        exact hpu.1
      simp [resolve_cursor, hp, hfil]

/-- Scanning above the id of the last row of a consumed chunk yields
exactly the unconsumed remainder of the scan. -/
theorem transactions_after_last {log : Log} {ns s k : Nat} {b : Transaction}
    (hsorted : log.Pairwise fun a b => a.id < b.id)
    (hlast : ((transactions_after log ns s).take k).getLast? = some b) :
    transactions_after log ns b.id = (transactions_after log ns s).drop k := by
  have hbA : b ∈ transactions_after log ns s :=
    (List.take_sublist k _).subset (mem_of_getLast_some hlast)
  have hAs := @transactions_after_pairwise log ns s hsorted
  have hsb : s < b.id := (mem_transactions_after.mp hbA).2.2
  have hstep : transactions_after log ns b.id =
      (transactions_after log ns s).filter
        (fun t => decide (b.id < t.id)) := by
    unfold transactions_after
    simp only [List.filter_filter]
    apply List.filter_congr
    intro t _
    by_cases hbt : b.id < t.id
    · simp [hbt, Nat.lt_trans hsb hbt]
    · simp [hbt]
  have hsplit : transactions_after log ns s =
      (transactions_after log ns s).take k ++
        (transactions_after log ns s).drop k :=
    (List.take_append_drop k _).symm
  have hmax := last_id_max
    (List.Pairwise.sublist (List.take_sublist _ _) hAs) hlast
  have hpairdrop : ∀ y ∈ (transactions_after log ns s).drop k,
      b.id < y.id := by
    intro y hy
    have hpw2 := hsplit ▸ hAs
    exact (List.pairwise_append.mp hpw2).2.2 b (mem_of_getLast_some hlast) y hy
  have hfiltake : ((transactions_after log ns s).take k).filter
      (fun t => decide (b.id < t.id)) = [] := by
    rw [List.filter_eq_nil_iff]
    intro x hx
    simp only [decide_eq_true_eq]
    exact Nat.not_lt.mpr (hmax x hx)
  have hfildrop : ((transactions_after log ns s).drop k).filter
      (fun t => decide (b.id < t.id)) =
        (transactions_after log ns s).drop k := by
    rw [List.filter_eq_self]
    intro x hx
    simp [hpairdrop x hx]
  calc transactions_after log ns b.id
      = (transactions_after log ns s).filter
          (fun t => decide (b.id < t.id)) := hstep
    _ = ((transactions_after log ns s).take k ++
          (transactions_after log ns s).drop k).filter
          (fun t => decide (b.id < t.id)) := by rw [← hsplit]
    _ = (transactions_after log ns s).drop k := by
          rw [List.filter_append, hfiltake, hfildrop, List.nil_append]

/-- Iterating the pagination protocol from any cursor resolving to
internal id `s` delivers every scanned entry's delta exactly once, in
order, given a well-formed log whose relevant entries all build deltas
successfully. -/
theorem iterate_pages_from (ns result_limit : Nat) (log : Log)
    (H1 : log.Pairwise fun a b => a.id < b.id)
    (H2 : (log.map Transaction.public_id).Nodup)
    (H3 : ∀ t ∈ log, parseBase36 t.public_id ≠ none
      ∧ parseBase36 t.public_id ≠ some 0)
    (H4 : ∀ t ∈ log, visible_in ns t = true → is_ok (create_event t) = true)
    (H5 : 1 ≤ result_limit) :
    ∀ fuel s c, resolve_cursor log ns c = .ok s →
      (transactions_after log ns s).length ≤ fuel →
      iterate_pages ns log result_limit fuel c =
        .ok ((transactions_after log ns s).map eventOf) := by
  intro fuel
  induction fuel with
  | zero =>
    intro s c hres hlen
    have hnil : transactions_after log ns s = [] :=
      List.length_eq_zero.mp (Nat.le_zero.mp hlen)
    simp [iterate_pages, hnil]
  | succ fuel ih =>
    intro s c hres hlen
    have hok : ∀ t ∈ transactions_after log ns s,
        is_ok (create_event t) = true := by
      intro t ht
      have hm := mem_transactions_after.mp ht
      exact H4 t hm.1 hm.2.1
    have hpg : page_go result_limit (transactions_after log ns s) [] c =
        .ok (((transactions_after log ns s).take result_limit).map eventOf,
          last_cursor c ((transactions_after log ns s).take result_limit)) := by
      have hpg0 := @page_go_ok result_limit (transactions_after log ns s)
        [] c (by simpa using H5) hok
      simpa using hpg0
    have hget : get_entries_from_public_id ns c log result_limit =
        .ok { cursor_start := c,
              deltas := ((transactions_after log ns s).take result_limit).map
                eventOf,
              cursor_end := last_cursor c
                ((transactions_after log ns s).take result_limit) } := by
      simp [get_entries_from_public_id, hres, hpg]
    cases hchunk : (transactions_after log ns s).take result_limit with
    | nil =>
      have hAnil : transactions_after log ns s = [] := by
        cases hA : transactions_after log ns s with
        | nil => rfl
        | cons x xs =>
          rw [hA] at hchunk
          have hk : result_limit = (result_limit - 1) + 1 := by omega
          rw [hk, List.take_succ_cons] at hchunk
          cases hchunk
      rw [hchunk] at hget
      rw [iterate_pages, hget]
      simp [hAnil]
    | cons d ds =>
      obtain ⟨b, hb⟩ : ∃ b,
          ((transactions_after log ns s).take result_limit).getLast? =
            some b := by
        rw [hchunk]
        exact ⟨(d :: ds).getLast (by simp),
          List.getLast?_eq_getLast_of_ne_nil (by simp)⟩
      have hbA : b ∈ transactions_after log ns s :=
        (List.take_sublist result_limit _).subset (mem_of_getLast_some hb)
      have hbm := mem_transactions_after.mp hbA
      have hres2 : resolve_cursor log ns b.public_id = .ok b.id :=
        resolve_cursor_member H2 (H3 b hbm.1) hbm.1 hbm.2.1
      have hlc : last_cursor c
          ((transactions_after log ns s).take result_limit) = b.public_id := by
        simp [last_cursor, hb]
      have hdrop : transactions_after log ns b.id =
          (transactions_after log ns s).drop result_limit :=
        transactions_after_last H1 hb
      have hlen2 : (transactions_after log ns b.id).length ≤ fuel := by
        rw [hdrop, List.length_drop]
        omega
      have hrec := ih b.id b.public_id hres2 hlen2
      rw [hdrop] at hrec
      have hdne : ((transactions_after log ns s).take result_limit).map
          eventOf ≠ [] := by
        rw [hchunk]
        simp
      rw [iterate_pages, hget]
      simp only []
      rw [if_neg hdne, hlc, hrec]
      show Except.ok
          (((transactions_after log ns s).take result_limit).map eventOf ++
            ((transactions_after log ns s).drop result_limit).map eventOf) =
        Except.ok ((transactions_after log ns s).map eventOf)
      rw [← List.map_append, List.take_append_drop]

/-- Theorem for claim C3 (amended): for any page size at least 1 and a
well-formed log (store-assigned positive strictly increasing ids,
distinct non-zero-parsing public ids, live entries) all of whose
namespace entries carry snapshots containing the `id` and `object`
fields — in particular, containing no delete entries, which make the
page request raise — iterating the pagination API from the start stamp,
feeding each call's `cursor_end` as the next `cursor_start`, yields
exactly one delta per entry of the unbounded ascending namespace scan,
in order, with none missing and none duplicated. -/
theorem C3_amended_pagination_gapfree (ns result_limit fuel : Nat)
    (log : Log)
    (H0 : ∀ t ∈ log, 0 < t.id)
    (Hlive : ∀ t ∈ log, t.deleted_at = none)
    (H1 : log.Pairwise fun a b => a.id < b.id)
    (H2 : (log.map Transaction.public_id).Nodup)
    (H3 : ∀ t ∈ log, parseBase36 t.public_id ≠ none
      ∧ parseBase36 t.public_id ≠ some 0)
    (H4 : ∀ t ∈ log, t.namespace_id = ns → is_ok (create_event t) = true)
    (H5 : 1 ≤ result_limit)
    (H6 : (log.filter fun t => t.namespace_id == ns).length ≤ fuel) :
    iterate_pages ns log result_limit fuel "0" =
      .ok ((log.filter fun t => t.namespace_id == ns).map eventOf) := by
  have hv : log.filter (visible_in ns) =
      log.filter (fun t => t.namespace_id == ns) := by
    apply List.filter_congr
    intro t ht
    simp [visible_in, Hlive t ht]
  have hafter0 : transactions_after log ns 0 =
      log.filter (fun t => t.namespace_id == ns) := by
    unfold transactions_after
    rw [List.filter_eq_self.mpr ?ha, hv]
    case ha =>
      intro x hx
      simp [H0 x (List.mem_filter.mp hx).1]
  have H4' : ∀ t ∈ log, visible_in ns t = true →
      is_ok (create_event t) = true := by
    intro t ht hvt
    simp only [visible_in, Bool.and_eq_true, beq_iff_eq] at hvt
    exact H4 t ht hvt.1
  have hres0 : resolve_cursor log ns "0" = .ok 0 := by
    simp [resolve_cursor, show parseBase36 "0" = some 0 from rfl]
  have hmain := iterate_pages_from ns result_limit log H1 H2 H3 H4' H5
    fuel 0 "0" hres0 (by rw [hafter0]; exact H6)
  rw [hmain, hafter0]

/-- Theorem for claim C3 (counterexample): on a log holding one delete
entry, the very first page request of the iteration raises (the delete
entry has no snapshot), so iterating the pagination protocol does not
yield the nonempty unbounded scan of the namespace. -/
theorem C3_counterexample_delete_entry_breaks_iteration :
    ([delTx].filter fun t => t.namespace_id == 3) = [delTx]
    ∧ iterate_pages 3 [delTx] 1 1 "0" =
        .error (.eventError "TypeError") :=
  ⟨rfl, rfl⟩

/-- Witness for C3 (amended) on a concrete three-entry log paged two at
a time. -/
theorem C3_amended_witness :
    1 ≤ 2
    ∧ iterate_pages 1 wlog3 2 3 "0" =
        .ok ((wlog3.filter fun t => t.namespace_id == 1).map eventOf) :=
  ⟨by decide, C3_amended_pagination_gapfree 1 2 3 wlog3 (by decide)
    (by decide) (by decide) (by decide) (by decide) (by decide) (by decide)
    (by decide)⟩
